import Mathlib

/-!
Verification of `demultiplex.py`, a FASTQ demultiplexer.

The program is embedded shallowly: Python-2 text lines become `List Char`,
the four gzip input files become lists of lines, the append-only output
files become a function from path to file content, and the global counters
become fields of an explicit state record.  Operations that can raise a
Python exception (`ZeroDivisionError` in `meanQS`, `IndexError` when a
string shorter than four characters is indexed) are modelled with `Option`,
`none` standing for the raised exception.
-/

/-- A line of text, as a Python 2 `str`: a list of characters. -/
abbrev Line := List Char

/-- One input file: its list of lines (newline terminators stripped by the model's `strip`). -/
abbrev InFile := List Line

/-- Python `str.strip` default whitespace set: space, \t, \n, \v, \f, \r. -/
def pySpace (c : Char) : Bool :=
  c = ' ' || c = '\t' || c = '\n' || c = Char.ofNat 11 || c = Char.ofNat 12 || c = '\r'

/-- Python `line.strip()`: drop whitespace from both ends. -/
def strip (l : Line) : Line :=
  ((l.dropWhile pySpace).reverse.dropWhile pySpace).reverse

/-- Source `containsN(index)`: `"N" in index`. -/
def containsN (index : Line) : Bool :=
  decide ('N' ∈ index)

/-- The per-character complement used by `matching`'s reverse-complement loop:
`A`↔`T`, `G`↔`C`, anything else becomes `N`. -/
def comp (x : Char) : Char :=
  if x = 'A' then 'T'
  else if x = 'T' then 'A'
  else if x = 'G' then 'C'
  else if x = 'C' then 'G'
  else 'N'

/-- Source `matching(index1, index2)` (lines 62-95): build the reverse
complement of `index2` by prepending complements, then the three-branch
N-tolerant trim (`if`/`elif`/`elif`), then string equality. -/
def matching (index1 index2 : Line) : Bool :=
  let inverse := index2.foldl (fun inv x => comp x :: inv) ([] : Line)
  if containsN index1 then
    decide (inverse.drop 1 = index1.drop 1)
  else if containsN index2 then
    decide (inverse.dropLast = index1.dropLast)
  else if containsN index1 && containsN index2 then
    decide ((inverse.drop 1).dropLast = (index1.drop 1).dropLast)
  else
    decide (inverse = index1)

/-- Which of the four exits of `matching`'s trim `if`/`elif`/`elif`/fall-through
chain is taken: 0 = trim front, 1 = trim back, 2 = trim both (the third
`elif`), 3 = no trim.  The guards are exactly those of the source. -/
def matchingBranch (index1 index2 : Line) : Nat :=
  if containsN index1 then 0
  else if containsN index2 then 1
  else if containsN index1 && containsN index2 then 2
  else 3

/-- Modelled from the spec wording of the claim: the per-character complement
`A`↔`T`, `C`↔`G`, any other symbol maps to `N`. -/
def complementSpec (x : Char) : Char :=
  if x = 'A' then 'T'
  else if x = 'T' then 'A'
  else if x = 'C' then 'G'
  else if x = 'G' then 'C'
  else 'N'

/-- Reverse complement of a sequence, as the spec describes it. -/
def reverseComplement (s : Line) : Line :=
  (s.map complementSpec).reverse

/-- Modelled from the spec wording: form the reverse complement of index-2;
if index-1 contains an N drop the first base of both index-1 and the reverse
complement; otherwise if index-2 contains an N drop the last base of both;
then compare for equality. -/
def matchingSpec (index1 index2 : Line) : Bool :=
  let rc := reverseComplement index2
  if 'N' ∈ index1 then
    decide (index1.drop 1 = rc.drop 1)
  else if 'N' ∈ index2 then
    decide (index1.dropLast = rc.dropLast)
  else
    decide (index1 = rc)

lemma comp_eq_complementSpec (x : Char) : comp x = complementSpec x := by
  unfold comp complementSpec
  by_cases hA : x = 'A' <;> by_cases hT : x = 'T' <;>
    by_cases hG : x = 'G' <;> by_cases hC : x = 'C' <;>
    simp [hA, hT, hG, hC]

lemma foldl_comp_cons (l : Line) (acc : Line) :
    l.foldl (fun inv x => comp x :: inv) acc = (l.map comp).reverse ++ acc := by
  induction l generalizing acc with
  | nil => rfl
  | cons x xs ih =>
    simp [List.foldl_cons, ih, List.map_cons, List.reverse_cons, List.append_assoc]

lemma inverse_eq_reverseComplement (l : Line) :
    l.foldl (fun inv x => comp x :: inv) ([] : Line) = reverseComplement l := by
  rw [foldl_comp_cons, List.append_nil, reverseComplement]
  congr 1
  exact List.map_congr_left fun x _ => comp_eq_complementSpec x

lemma matching_eq_matchingSpec (index1 index2 : Line) :
    matching index1 index2 = matchingSpec index1 index2 := by
  unfold matching matchingSpec
  rw [inverse_eq_reverseComplement]
  by_cases h1 : 'N' ∈ index1 <;> by_cases h2 : 'N' ∈ index2 <;>
    simp [containsN, h1, h2, decide_eq_decide, eq_comm]

/-- C6: the third trim branch of `matching` (the one guarded by
`containsN(index1) and containsN(index2)`, intended to trim both ends) is
unreachable: no pair of inputs ever selects branch 2. -/
theorem C6_third_trim_branch_unreachable (index1 index2 : Line) :
    matchingBranch index1 index2 ≠ 2 := by
  unfold matchingBranch
  by_cases h1 : containsN index1 <;> by_cases h2 : containsN index2 <;>
    simp [h1, h2]

/-- C7: `matching` returns true exactly when the spec's computation does:
reverse-complement index-2 (A↔T, C↔G, other → N), trim the first base of both
when index-1 contains an N, else the last base of both when index-2 contains
an N, then compare for equality. -/
theorem C7_matching_follows_spec (index1 index2 : Line) :
    matching index1 index2 = matchingSpec index1 index2 :=
  matching_eq_matchingSpec index1 index2

lemma complementSpec_ne_N {c : Char}
    (h : c = 'A' ∨ c = 'C' ∨ c = 'G' ∨ c = 'T') : complementSpec c ≠ 'N' := by
  rcases h with h | h | h | h <;> subst h <;> decide

lemma complementSpec_complementSpec {c : Char}
    (h : c = 'A' ∨ c = 'C' ∨ c = 'G' ∨ c = 'T') :
    complementSpec (complementSpec c) = c := by
  rcases h with h | h | h | h <;> subst h <;> decide

lemma reverseComplement_reverseComplement (a : Line)
    (h : ∀ c ∈ a, c = 'A' ∨ c = 'C' ∨ c = 'G' ∨ c = 'T') :
    reverseComplement (reverseComplement a) = a := by
  unfold reverseComplement
  rw [List.map_reverse, List.reverse_reverse, List.map_map]
  have h' : ∀ c ∈ a, (complementSpec ∘ complementSpec) c = id c := by
    intro c hc
    simpa using complementSpec_complementSpec (h c hc)
  rw [List.map_congr_left h', List.map_id]

/-- C8: for every sequence over {A,C,G,T} (so neither argument contains an N),
`matching a (reverse_complement a)` returns true. -/
theorem C8_matching_reverse_complement (a : Line)
    (h : ∀ c ∈ a, c = 'A' ∨ c = 'C' ∨ c = 'G' ∨ c = 'T') :
    matching a (reverseComplement a) = true := by
  have hNa : containsN a = false := by
    simp only [containsN, decide_eq_false_iff_not]
    intro hN
    rcases h _ hN with h' | h' | h' | h' <;> exact absurd h' (by decide)
  have hNrc : containsN (reverseComplement a) = false := by
    simp only [containsN, decide_eq_false_iff_not, reverseComplement,
      List.mem_reverse, List.mem_map]
    rintro ⟨c, hc, hcN⟩
    exact complementSpec_ne_N (h c hc) hcN
  simp [matching, inverse_eq_reverseComplement, hNa, hNrc,
    reverseComplement_reverseComplement a h]

/-- Witness for C8 at the concrete sequence ACGT. -/
theorem C8_matching_reverse_complement_witness :
    (∀ c ∈ ("ACGT").toList, c = 'A' ∨ c = 'C' ∨ c = 'G' ∨ c = 'T') ∧
      matching (("ACGT").toList) (reverseComplement (("ACGT").toList)) = true :=
  ⟨by decide, C8_matching_reverse_complement (("ACGT").toList) (by decide)⟩

/-- Source `convertPhred(letter)`: `ord(letter) - 33`. -/
def convertPhred (letter : Char) : Int :=
  (letter.toNat : Int) - 33

/-- The loop-and-divide body of `meanQS`, applied to whatever Python's
`read[3]` produced (an iterable of characters).  Division by a zero length
raises `ZeroDivisionError`, modelled as `none`.  `total/bp` on Python 2
integers is floor division, `Int.fdiv`.  (The cutoff comparison is invariant
under floor versus true division, since floor(x) >= 32 iff x >= 32.) -/
def meanQSrun (q : Line) : Option Int :=
  if q.length = 0 then none
  else some (Int.fdiv ((q.map convertPhred).sum) (q.length : Int))

/-- Source `meanQS(read)`, for a `read` that is a list of lines (the
four-line record arrays of the main program): `read[3]` selects the quality
line; an out-of-range index raises `IndexError` (`none`). -/
def meanQS (read : List Line) : Option Int :=
  (read.get? 3).bind meanQSrun

/-- Function `meanQS` as actually invoked from the main loop, where `read` is an
index *sequence string*: Python's `read[3]` then selects the single character
at position 3, and the loop iterates over that one-character string. -/
def meanQSix (index : Line) : Option Int :=
  (index.get? 3).bind fun c => meanQSrun [c]

/-- Source `compareMeans(read)`, record version: `meanQS(read) >= 32`. -/
def compareMeans (read : List Line) : Option Bool :=
  (meanQS read).map fun m => decide ((32 : Int) ≤ m)

/-- Function `compareMeans` as invoked from the main loop on an index sequence string. -/
def compareMeansIx (index : Line) : Option Bool :=
  (meanQSix index).map fun m => decide ((32 : Int) ≤ m)

/-- The condition of the main loop's QS check (line 288):
`not(compareMeans(index1)) or not(compareMeans(index2))`, with Python's
short-circuit evaluation (the second call is not evaluated when the first
already fails the cutoff). -/
def qsCond (index1 index2 : Line) : Option Bool :=
  (compareMeansIx index1).bind fun q1 =>
    if !q1 then some true
    else (compareMeansIx index2).map fun q2 => !q2

/-- The bit flag after the three reason checks of the main loop
(lines 280-290): 1 for ContainsN, 2 for IndexMismatch, 4 for LowQuality. -/
def flagNIHQS (index1 index2 : Line) : Option Nat :=
  (qsCond index1 index2).map fun qsBad =>
    (if containsN index1 || containsN index2 then 1 else 0) +
      (if !(matching index1 index2) then 2 else 0) +
      (if qsBad then 4 else 0)

/-- The 24 known barcodes, in the order of the source's `indices` dictionary
literal (without the SNP sentinel). -/
def knownBarcodes : List Line :=
  [("GTAGCGTA").toList, ("CGATCGAT").toList, ("GATCAAGG").toList, ("AACAGCGA").toList,
   ("TAGCCATG").toList, ("CGGTAATC").toList, ("CTCTGGAT").toList, ("TACCGGAT").toList,
   ("CTAGCTCA").toList, ("CACTTCAC").toList, ("GCTACTCT").toList, ("ACGATCAG").toList,
   ("TATGGCAC").toList, ("TGTTCCGT").toList, ("GTCCTAAG").toList, ("TCGACAAG").toList,
   ("TCTTCGAC").toList, ("ATCATGCG").toList, ("ATCGTGGT").toList, ("TCGAGAGT").toList,
   ("TCGGATTC").toList, ("GATCTTGC").toList, ("AGAGTCCA").toList, ("AGGATAGC").toList]

/-- The sentinel key counting unrecognized-barcode reads. -/
def snpKey : Line := ("SNP").toList

/-- The key set of the source's `indices` dictionary: the 24 barcodes plus
the SNP sentinel.  Membership (`index1 in indices`) never changes during the
run since only the values are mutated. -/
def indicesKeys : List Line := knownBarcodes ++ [snpKey]

/-- Base directory of every output path in the source. -/
def outDir : Line :=
  ("/projects/bgmp/maddyg/Bi624/demultiplexing/outputFiles/").toList

/-- Path `outputFiles/<index1>_R1.fastq` of an accepted read-1 bucket. -/
def goodPath1 (index : Line) : Line := (outDir ++ index) ++ ("_R1.fastq").toList

/-- Path `outputFiles/<index1>_R2.fastq` of an accepted read-2 bucket. -/
def goodPath2 (index : Line) : Line := (outDir ++ index) ++ ("_R2.fastq").toList

/-- Path of the read-1 reject file. -/
def rejectsR1 : Line := outDir ++ ("rejects_R1.fastq").toList

/-- Path of the read-2 reject file. -/
def rejectsR2 : Line := outDir ++ ("rejects_R2.fastq").toList

/-- The output file system: content (list of written lines) per path. -/
abbrev FileSys := Line → List Line

/-- Writing a 4-line record in append mode: the body of `writeToGoodFile` and
of `writeToBadFile`'s `with open(...)` block (each of `read[0..3]` followed by
a newline, i.e. four appended lines). -/
def appendRecord (files : FileSys) (path : Line) (read : List Line) : FileSys :=
  Function.update files path
    (files path ++ [read.getD 0 [], read.getD 1 [], read.getD 2 [], read.getD 3 []])

/-- Source `writeToGoodFile(outputFile, read)`. -/
def writeToGoodFile (files : FileSys) (path : Line) (read : List Line) : FileSys :=
  appendRecord files path read

/-- Source `writeToBadFile(outputFile, read, reason)`: append a tag
to `read[2]` for each set reason bit (N = 1, IH = 2, QS = 4, E = 8, in that
order), then append the four lines.  Python mutates the caller's list, so the
mutated record is returned alongside the updated file system. -/
def writeToBadFile (files : FileSys) (path : Line) (read : List Line) (reason : Nat) :
    FileSys × List Line :=
  let read := if Nat.land reason 1 ≠ 0 then read.set 2 (read.getD 2 [] ++ (" (N)").toList) else read
  let read := if Nat.land reason 2 ≠ 0 then read.set 2 (read.getD 2 [] ++ (" (IH)").toList) else read
  let read := if Nat.land reason 4 ≠ 0 then read.set 2 (read.getD 2 [] ++ (" (QS)").toList) else read
  let read := if Nat.land reason 8 ≠ 0 then read.set 2 (read.getD 2 [] ++ (" (E)").toList) else read
  (appendRecord files path read, read)

/-- The mutable global state of the main program: the four counters, the
`indices` count table and the output files. -/
structure RunState where
  reads : Nat
  N : Nat
  IH : Nat
  QS : Nat
  indices : Line → Nat
  files : FileSys

/-- State at program start: all counters and all files empty. -/
def initState : RunState :=
  { reads := 0, N := 0, IH := 0, QS := 0, indices := fun _ => 0, files := fun _ => [] }

/-- The classification-and-routing part of the main loop body (lines 276-306),
given the two index sequences and the two (already separator-annotated)
primary records.  `none` models the `IndexError` raised when an index
sequence shorter than four characters reaches `compareMeans`.  The pure
reason checks are hoisted past that possible exception point, which is
observationally equivalent since an exception discards the whole state. -/
def processGroup (index1 index2 : Line) (read1 read2 : List Line) (st : RunState) :
    Option RunState :=
  (qsCond index1 index2).map fun qsBad =>
    let c1 := containsN index1 || containsN index2
    let c2 := !(matching index1 index2)
    let flag := (if c1 then 1 else 0) + (if c2 then 2 else 0) + (if qsBad then 4 else 0)
    let st : RunState :=
      { st with
        reads := st.reads + 1
        N := if c1 then st.N + 1 else st.N
        IH := if c2 then st.IH + 1 else st.IH
        QS := if qsBad then st.QS + 1 else st.QS }
    if flag = 0 then
      if index1 ∈ indicesKeys then
        let st := { st with indices := Function.update st.indices index1 (st.indices index1 + 1) }
        let st := { st with files := writeToGoodFile st.files (goodPath1 index1) read1 }
        { st with files := writeToGoodFile st.files (goodPath2 index1) read2 }
      else
        let flag := flag + 8
        let st := { st with indices := Function.update st.indices snpKey (st.indices snpKey + 1) }
        let p1 := writeToBadFile st.files rejectsR1 read1 flag
        let st := { st with files := p1.1 }
        -- source line 303 passes read1 (already mutated by the first call)
        -- to the rejects_R2 write as well
        let p2 := writeToBadFile st.files rejectsR2 p1.2 flag
        { st with files := p2.1 }
    else
      let p1 := writeToBadFile st.files rejectsR1 read1 flag
      let st := { st with files := p1.1 }
      let p2 := writeToBadFile st.files rejectsR2 read2 flag
      { st with files := p2.1 }

/-- Source `readInLine(file)`: read one line and strip whitespace.
At end of file Python's `readline` returns the empty string. -/
def readInLine (file : InFile) : Line × InFile :=
  match file with
  | [] => ([], [])
  | l :: ls => (strip l, ls)

/-- One ReadGroup as produced by the reading phase of the main loop: the two
primary records (their separator lines already annotated with the index
sequences) and the two index sequences. -/
structure ReadGroup where
  read1 : List Line
  read2 : List Line
  index1 : Line
  index2 : Line

/-- The reading phase of one main-loop iteration (lines 259-274), the
`for x in range(4)` loop unrolled.  At each step a line of R1 is read first
and an empty result ends the run (`none`); only then are I1, I2 and R2 read.
At `x = 2` the separator lines of both primary records are annotated with the
corresponding index sequence (line read at `x = 1`). -/
def readGroup (r1 i1 i2 r2 : InFile) :
    Option ReadGroup × InFile × InFile × InFile × InFile :=
  -- x = 0
  let (a0, r1) := readInLine r1
  if a0 = [] then (none, r1, i1, i2, r2) else
  let (b0, i1) := readInLine i1
  let (c0, i2) := readInLine i2
  let (d0, r2) := readInLine r2
  -- x = 1
  let (a1, r1) := readInLine r1
  if a1 = [] then (none, r1, i1, i2, r2) else
  let (b1, i1) := readInLine i1
  let (c1, i2) := readInLine i2
  let (d1, r2) := readInLine r2
  -- x = 2
  let (a2, r1) := readInLine r1
  if a2 = [] then (none, r1, i1, i2, r2) else
  let (b2, i1) := readInLine i1
  let (c2, i2) := readInLine i2
  let (d2, r2) := readInLine r2
  let a2 := a2 ++ [' '] ++ b1
  let d2 := d2 ++ [' '] ++ c1
  -- x = 3
  let (a3, r1) := readInLine r1
  if a3 = [] then (none, r1, i1, i2, r2) else
  let (b3, i1) := readInLine i1
  let (c3, i2) := readInLine i2
  let (d3, r2) := readInLine r2
  (some ⟨[a0, a1, a2, a3], [d0, d1, d2, d3], b1, c1⟩, r1, i1, i2, r2)

/-- The `while end == False` loop of the main program, with an explicit fuel
argument for structural recursion; every iteration that does not stop
consumes four lines of R1, so `r1.length + 1` fuel always suffices. -/
def runLoop : Nat → InFile → InFile → InFile → InFile → RunState → Option RunState
  | 0, _, _, _, _, st => some st
  | fuel + 1, r1, i1, i2, r2, st =>
    match readGroup r1 i1 i2 r2 with
    | (none, _, _, _, _) => some st
    | (some g, r1', i1', i2', r2') =>
      match processGroup g.index1 g.index2 g.read1 g.read2 st with
      | none => none
      | some st' => runLoop fuel r1' i1' i2' r2' st'

/-- The whole demultiplexing run on the four input files, from the initial
state.  `none` models an uncaught exception. -/
def run (r1 i1 i2 r2 : InFile) : Option RunState :=
  runLoop (r1.length + 1) r1 i1 i2 r2 initState

/-- The flag value at the moment of routing (lines 294-306): when the three
reason bits are all clear and the barcode is not a key of `indices`, 8 (the
E bit) is added; otherwise the flag is unchanged. -/
def finalFlag (index1 index2 : Line) : Option Nat :=
  (flagNIHQS index1 index2).map fun f =>
    if f = 0 then (if index1 ∈ indicesKeys then f else f + 8) else f

/-- Whether the group is routed to its barcode's bucket, i.e. the
`writeToGoodFile` branch of lines 294-298 is taken. -/
def isAccepted (index1 index2 : Line) : Option Bool :=
  (flagNIHQS index1 index2).map fun f =>
    decide (f = 0) && decide (index1 ∈ indicesKeys)

lemma containsN_snpKey : containsN snpKey = true := by decide

lemma mem_indicesKeys_iff {index1 : Line} (h : containsN index1 = false) :
    index1 ∈ indicesKeys ↔ index1 ∈ knownBarcodes := by
  unfold indicesKeys
  rw [List.mem_append]
  constructor
  · rintro (hk | hs)
    · exact hk
    · exfalso
      rw [List.mem_singleton] at hs
      rw [hs, containsN_snpKey] at h
      exact absurd h (by decide)
  · exact Or.inl

lemma flagNIHQS_eq_zero {index1 index2 : Line}
    (h : flagNIHQS index1 index2 = some 0) :
    qsCond index1 index2 = some false ∧
      (containsN index1 || containsN index2) = false ∧
      matching index1 index2 = true := by
  rcases hq : qsCond index1 index2 with _ | qsBad
  · rw [flagNIHQS, hq] at h
    simp at h
  · rw [flagNIHQS, hq] at h
    simp only [Option.map_some', Option.some.injEq] at h
    cases hc1 : (containsN index1 || containsN index2) <;>
      cases hm : matching index1 index2 <;> cases qsBad <;>
      simp [hc1, hm] at h ⊢

/-- C9: the E (UnknownBarcode) bit, 8, appears in the routing flag only when
the three earlier reasons are all absent (flag 0); in that case it is set
exactly when index-1 is absent from the known-barcode vocabulary; and the
group is accepted (routed to its barcode's bucket) iff the reason flag is 0
and the barcode is recognized. -/
theorem C9_unknown_barcode_and_acceptance (index1 index2 : Line) (f : Nat)
    (h : flagNIHQS index1 index2 = some f) :
    (∀ g, finalFlag index1 index2 = some g →
      (Nat.testBit g 3 = true → f = 0) ∧
      (f = 0 → (Nat.testBit g 3 = true ↔ index1 ∉ knownBarcodes))) ∧
    isAccepted index1 index2 =
      some (decide (f = 0) && decide (index1 ∈ knownBarcodes)) := by
  have hff : finalFlag index1 index2 =
      some (if f = 0 then (if index1 ∈ indicesKeys then f else f + 8) else f) := by
    rw [finalFlag, h, Option.map_some']
  have hacc : isAccepted index1 index2 =
      some (decide (f = 0) && decide (index1 ∈ indicesKeys)) := by
    rw [isAccepted, h, Option.map_some']
  have hle : f < 8 := by
    rcases hq : qsCond index1 index2 with _ | qsBad
    · rw [flagNIHQS, hq] at h
      simp at h
    · rw [flagNIHQS, hq] at h
      simp only [Option.map_some', Option.some.injEq] at h
      rw [← h]
      split <;> split <;> split <;> norm_num
  by_cases hf0 : f = 0
  · subst hf0
    have hz := flagNIHQS_eq_zero h
    have hN : containsN index1 = false := by
      rcases Bool.or_eq_false_iff.mp hz.2.1 with ⟨hN, _⟩
      exact hN
    have hmem := mem_indicesKeys_iff hN
    constructor
    · intro g hg
      rw [hff] at hg
      simp only [if_pos rfl, Option.some.injEq] at hg
      by_cases hk : index1 ∈ indicesKeys
      · rw [if_pos hk] at hg
        subst hg
        refine ⟨fun _ => rfl, fun _ => ?_⟩
        simp [hmem.mp hk]
      · rw [if_neg hk] at hg
        subst hg
        refine ⟨fun _ => rfl, fun _ => ?_⟩
        simp only [Nat.zero_add]
        constructor
        · intro _
          exact fun hkn => hk (hmem.mpr hkn)
        · intro _
          decide
    · rw [hacc]
      congr 1
      congr 1
      exact decide_eq_decide.mpr hmem
  · constructor
    · intro g hg
      rw [hff, if_neg hf0] at hg
      simp only [Option.some.injEq] at hg
      subst hg
      refine ⟨fun hb => ?_, fun hz => absurd hz hf0⟩
      rw [Nat.testBit_eq_false_of_lt hle] at hb
      exact absurd hb (by decide)
    · rw [hacc]
      simp [hf0]

/-- Witness for C9 at a concrete recognized barcode with matching indices. -/
theorem C9_unknown_barcode_and_acceptance_witness :
    flagNIHQS (("GTAGCGTA").toList) (("TACGCTAC").toList) = some 0 ∧
      ((∀ g, finalFlag (("GTAGCGTA").toList) (("TACGCTAC").toList) = some g →
        (Nat.testBit g 3 = true → 0 = 0) ∧
        (0 = 0 → (Nat.testBit g 3 = true ↔ ("GTAGCGTA").toList ∉ knownBarcodes))) ∧
      isAccepted (("GTAGCGTA").toList) (("TACGCTAC").toList) =
        some (decide (0 = 0) && decide (("GTAGCGTA").toList ∈ knownBarcodes))) :=
  ⟨by decide,
    C9_unknown_barcode_and_acceptance (("GTAGCGTA").toList) (("TACGCTAC").toList) 0 (by decide)⟩

/-- A four-line R1 input record used by the concrete evaluations. -/
def exR1 : InFile := [("@r1").toList, ("ACGT").toList, ("+").toList, ("IIII").toList]

/-- A four-line R2 input record used by the concrete evaluations. -/
def exR2 : InFile := [("@r2").toList, ("TGCA").toList, ("+").toList, ("JJJJ").toList]

/-- An I1 record whose sequence matches I2's reverse complement but whose
quality string is all `!` (Phred 0 at every position, mean 0). -/
def exI1qs : InFile := [("@i1").toList, ("AAAAAAAA").toList, ("+").toList, ("!!!!!!!!").toList]

/-- The matching I2 record with an all-`!` quality string. -/
def exI2qs : InFile := [("@i2").toList, ("TTTTTTTT").toList, ("+").toList, ("!!!!!!!!").toList]

/-- C1: the LowQuality check does not look at the index quality strings.  On
a ReadGroup whose two index records both carry the quality string `!!!!!!!!`
(mean Phred 0, below the cutoff 32, so the claim requires the QS reason), the
group is processed (`reads = 1`) yet the QS counter stays 0: the code passes
the index *sequences* to `compareMeans`, so only the sequence character at
position 3 is ever scored. -/
theorem C1_qs_scores_sequence_char_not_quality :
    (run exR1 exI1qs exI2qs exR2).map (fun s => (s.reads, s.QS)) = some (1, 0) ∧
      meanQSrun (("!!!!!!!!").toList) = some 0 ∧ ((0 : Int) < 32) := by
  refine ⟨by decide, by decide, by decide⟩

/-- An I1 record with a well-formed sequence absent from the barcode table. -/
def exI1snp : InFile := [("@i1").toList, ("CCCCCCCC").toList, ("+").toList, ("IIIIIIII").toList]

/-- The matching I2 record for the unknown barcode. -/
def exI2snp : InFile := [("@i2").toList, ("GGGGGGGG").toList, ("+").toList, ("IIIIIIII").toList]

/-- C2: on an unknown-barcode reject (flag 0, barcode not in the table), the
code appends the primary-1 record to *both* reject files (line 303 passes
`read1` where the claim requires primary-2), and because the first call
already mutated `read1`'s separator, the copy in rejects_R2 carries the
`(E)` tag twice. -/
theorem C2_unknown_barcode_rejectsR2_gets_read1 :
    (run exR1 exI1snp exI2snp exR2).map
        (fun s => (s.files rejectsR1, s.files rejectsR2)) =
      some ([("@r1").toList, ("ACGT").toList, ("+ CCCCCCCC (E)").toList, ("IIII").toList],
            [("@r1").toList, ("ACGT").toList, ("+ CCCCCCCC (E) (E)").toList, ("IIII").toList]) := by
  decide

/-- An I1 record carrying the known barcode GTAGCGTA. -/
def exI1ok : InFile := [("@i1").toList, ("GTAGCGTA").toList, ("+").toList, ("IIIIIIII").toList]

/-- The I2 record whose sequence is the reverse complement of GTAGCGTA. -/
def exI2ok : InFile := [("@i2").toList, ("TACGCTAC").toList, ("+").toList, ("IIIIIIII").toList]

/-- C3 counterexample: an accepted ReadGroup is not written verbatim.  For a
primary-1 record read as `@r1 / ACGT / + / IIII` with accepted barcode
GTAGCGTA, the bucket file receives a separator line `+ GTAGCGTA`, which
differs from the separator line `+` that was read. -/
theorem C3_counterexample_separator_annotated :
    (run exR1 exI1ok exI2ok exR2).map
        (fun s => s.files (goodPath1 (("GTAGCGTA").toList))) =
      some [("@r1").toList, ("ACGT").toList, ("+ GTAGCGTA").toList, ("IIII").toList] ∧
    [("@r1").toList, ("ACGT").toList, ("+ GTAGCGTA").toList, ("IIII").toList] ≠
      [("@r1").toList, ("ACGT").toList, ("+").toList, ("IIII").toList] := by
  refine ⟨by decide, by decide⟩

/-- C4 counterexample: with the primary-read-2 stream exhausted from the very
start (empty file) and full records on the other three streams, a ReadGroup
is still processed and counted (`reads = 1`); exhaustion of a stream other
than primary-read-1 does not stop processing, contradicting the claim's
"regardless of which stream exhausted first". -/
theorem C4_counterexample_r2_exhausted_still_processed :
    (run exR1 exI1ok exI2ok []).map (fun s => s.reads) = some 1 := by
  decide

/-- C5: `meanQS` has no explicit guard for an empty quality string: on a
record whose quality line is empty it performs the division `total/bp` with
`bp = 0`, an unguarded `ZeroDivisionError` (modelled as `none`), instead of
failing fast with a descriptive error as the claim requires. -/
theorem C5_meanQS_unguarded_zero_division :
    meanQS [("@r").toList, ("ACGT").toList, ("+").toList, ([] : Line)] = none := by
  decide

/-- C4 (amended): processing silently stops exactly when the primary-read-1
stream is exhausted (its next line reads back empty): from such a point no
further ReadGroup is processed, counted or written, whatever the other three
streams still hold. -/
theorem C4_amended_stops_on_r1_exhaustion (fuel : Nat) (r1 i1 i2 r2 : InFile)
    (st : RunState) (h : strip (r1.headD []) = []) :
    runLoop (fuel + 1) r1 i1 i2 r2 st = some st := by
  cases r1 with
  | nil =>
    simp [runLoop, readGroup, readInLine]
  | cons l ls =>
    simp only [List.headD_cons] at h
    simp [runLoop, readGroup, readInLine, h]

/-- Witness for C4 (amended) on empty streams. -/
theorem C4_amended_stops_on_r1_exhaustion_witness :
    strip (([] : InFile).headD []) = [] ∧
      runLoop 1 [] [] [] [] initState = some initState :=
  ⟨by decide, C4_amended_stops_on_r1_exhaustion 0 [] [] [] [] initState (by decide)⟩

lemma goodPath1_ne_goodPath2 (ix : Line) : goodPath1 ix ≠ goodPath2 ix := by
  unfold goodPath1 goodPath2
  intro h
  have h' := List.append_cancel_left h
  exact absurd h' (by decide)

/-- C3 (amended): for an accepted ReadGroup, the header, sequence and quality
lines of primary-1 and primary-2 are appended exactly as read, but each
separator line is appended with a space and the corresponding index sequence
(index-1's for primary-1, index-2's for primary-2) attached; everything else
about the records is unchanged. -/
theorem C3_amended_accepted_records_annotated
    (a0 a1 a2 a3 b0 b1 b2 b3 c0 c1 c2 c3 d0 d1 d2 d3 : Line)
    (h0 : strip a0 ≠ []) (h1 : strip a1 ≠ []) (h2 : strip a2 ≠ []) (h3 : strip a3 ≠ [])
    (hf : flagNIHQS (strip b1) (strip c1) = some 0)
    (hk : strip b1 ∈ indicesKeys) :
    (run [a0, a1, a2, a3] [b0, b1, b2, b3] [c0, c1, c2, c3] [d0, d1, d2, d3]).map
        (fun s => (s.files (goodPath1 (strip b1)), s.files (goodPath2 (strip b1)))) =
      some ([strip a0, strip a1, strip a2 ++ [' '] ++ strip b1, strip a3],
            [strip d0, strip d1, strip d2 ++ [' '] ++ strip c1, strip d3]) := by
  obtain ⟨hqs, hc1, hm⟩ := flagNIHQS_eq_zero hf
  have hrg : readGroup [a0, a1, a2, a3] [b0, b1, b2, b3] [c0, c1, c2, c3] [d0, d1, d2, d3] =
      (some ⟨[strip a0, strip a1, strip a2 ++ [' '] ++ strip b1, strip a3],
             [strip d0, strip d1, strip d2 ++ [' '] ++ strip c1, strip d3],
             strip b1, strip c1⟩, [], [], [], []) := by
    simp [readGroup, readInLine, h0, h1, h2, h3]
  have hpg : ∀ rd1 rd2 st, processGroup (strip b1) (strip c1) rd1 rd2 st =
      some { st with
        reads := st.reads + 1
        indices := Function.update st.indices (strip b1) (st.indices (strip b1) + 1)
        files := writeToGoodFile
          (writeToGoodFile st.files (goodPath1 (strip b1)) rd1)
          (goodPath2 (strip b1)) rd2 } := by
    intro rd1 rd2 st
    simp [processGroup, hqs, hc1, hm, hk]
  simp only [run]
  rw [show ([a0, a1, a2, a3] : InFile).length + 1 = 4 + 1 from rfl]
  rw [runLoop, hrg]
  simp only [hpg, Option.map_some']
  rw [show (4 : Nat) = 3 + 1 from rfl, runLoop]
  rw [show readGroup ([] : InFile) [] [] [] = (none, [], [], [], []) from rfl]
  simp only [Option.map_some', Option.some.injEq, Prod.mk.injEq]
  rw [writeToGoodFile, writeToGoodFile, appendRecord, appendRecord]
  constructor
  · rw [Function.update_noteq (goodPath1_ne_goodPath2 (strip b1)), Function.update_same]
    simp [initState]
  · rw [Function.update_same]
    simp [initState, Function.update_noteq (Ne.symm (goodPath1_ne_goodPath2 (strip b1)))]

/-- Witness for C3 (amended) on a concrete accepted ReadGroup. -/
theorem C3_amended_accepted_records_annotated_witness :
    strip (("@r1").toList) ≠ [] ∧ strip (("ACGT").toList) ≠ [] ∧
    strip (("+").toList) ≠ [] ∧ strip (("IIII").toList) ≠ [] ∧
    flagNIHQS (strip (("GTAGCGTA").toList)) (strip (("TACGCTAC").toList)) = some 0 ∧
    strip (("GTAGCGTA").toList) ∈ indicesKeys ∧
    (run [("@r1").toList, ("ACGT").toList, ("+").toList, ("IIII").toList]
         [("@i1").toList, ("GTAGCGTA").toList, ("+").toList, ("IIIIIIII").toList]
         [("@i2").toList, ("TACGCTAC").toList, ("+").toList, ("IIIIIIII").toList]
         [("@r2").toList, ("TGCA").toList, ("+").toList, ("JJJJ").toList]).map
        (fun s => (s.files (goodPath1 (strip (("GTAGCGTA").toList))),
                   s.files (goodPath2 (strip (("GTAGCGTA").toList))))) =
      some ([strip (("@r1").toList), strip (("ACGT").toList),
             strip (("+").toList) ++ [' '] ++ strip (("GTAGCGTA").toList),
             strip (("IIII").toList)],
            [strip (("@r2").toList), strip (("TGCA").toList),
             strip (("+").toList) ++ [' '] ++ strip (("TACGCTAC").toList),
             strip (("JJJJ").toList)]) :=
  ⟨by decide, by decide, by decide, by decide, by decide, by decide,
    C3_amended_accepted_records_annotated _ _ _ _ _ _ _ _ _ _ _ _ _ _ _ _
      (by decide) (by decide) (by decide) (by decide) (by decide) (by decide)⟩

lemma compareMeansIx_alphabet (s : Line) (hlen : 4 ≤ s.length)
    (ha : ∀ c ∈ s, c ∈ ("ACGTN").toList) : compareMeansIx s = some true := by
  have h3 : 3 < s.length := by omega
  obtain ⟨c, hget⟩ : ∃ c, s.get? 3 = some c := ⟨s.get ⟨3, h3⟩, List.get?_eq_get h3⟩
  have hcm : c ∈ s := List.get?_mem hget
  have hmem : c = 'A' ∨ c = 'C' ∨ c = 'G' ∨ c = 'T' ∨ c = 'N' := by
    simpa using ha c hcm
  rw [compareMeansIx, meanQSix, hget]
  rcases hmem with h | h | h | h | h <;> subst h <;> decide

lemma qsCond_alphabet (index1 index2 : Line)
    (h1 : 4 ≤ index1.length) (h2 : 4 ≤ index2.length)
    (ha1 : ∀ c ∈ index1, c ∈ ("ACGTN").toList)
    (ha2 : ∀ c ∈ index2, c ∈ ("ACGTN").toList) :
    qsCond index1 index2 = some false := by
  rw [qsCond, compareMeansIx_alphabet index1 h1 ha1,
    compareMeansIx_alphabet index2 h2 ha2]
  rfl

/-- C10: when both index sequences have length at least 4 and range over
{A,C,G,T,N}, the LowQuality reason is never set: the QS condition of the main
loop evaluates to false (the code scores only the character at position 3 of
each index sequence, and every alphabet character has code point minus 33 at
least 32), and a processed group leaves the QS counter unchanged. -/
theorem C10_low_quality_never_set (index1 index2 : Line)
    (h1 : 4 ≤ index1.length) (h2 : 4 ≤ index2.length)
    (ha1 : ∀ c ∈ index1, c ∈ ("ACGTN").toList)
    (ha2 : ∀ c ∈ index2, c ∈ ("ACGTN").toList) :
    qsCond index1 index2 = some false ∧
      ∀ read1 read2 st st',
        processGroup index1 index2 read1 read2 st = some st' → st'.QS = st.QS := by
  have hq := qsCond_alphabet index1 index2 h1 h2 ha1 ha2
  refine ⟨hq, ?_⟩
  intro read1 read2 st st' hstep
  simp only [processGroup, hq, Option.map_some', Option.some.injEq] at hstep
  subst hstep
  repeat' split
  all_goals first | rfl | simp_all

/-- Witness for C10 at two concrete 8-character index sequences. -/
theorem C10_low_quality_never_set_witness :
    4 ≤ (("AAAAAAAA").toList).length ∧ 4 ≤ (("TTTTTTTT").toList).length ∧
    (∀ c ∈ ("AAAAAAAA").toList, c ∈ ("ACGTN").toList) ∧
    (∀ c ∈ ("TTTTTTTT").toList, c ∈ ("ACGTN").toList) ∧
    (qsCond (("AAAAAAAA").toList) (("TTTTTTTT").toList) = some false ∧
      ∀ read1 read2 st st',
        processGroup (("AAAAAAAA").toList) (("TTTTTTTT").toList) read1 read2 st = some st' →
          st'.QS = st.QS) :=
  ⟨by decide, by decide, by decide, by decide,
    C10_low_quality_never_set (("AAAAAAAA").toList) (("TTTTTTTT").toList)
      (by decide) (by decide) (by decide) (by decide)⟩
